import Mathlib

/-!
Verification of the subnet-aware IP reconciliation workflow of
andreaskaris/nutanix-test (src/main.go).

The embedding has three layers:
1. a model of the parts of Go's standard `net` package the program calls
   (`net.ParseIP`, `net.ParseCIDR`, `IPNet.Contains`, `IP.Equal`), with Go
   byte slices rendered as `List Nat` and the nil slice as `[]`;
2. the data model of the Nutanix v3 client types the program reads and
   writes (VM spec, NIC, IP endpoint, subnet IP config);
3. the control flow of `main` as a pure function from the flags and an
   environment (the remote inventory) to the ordered list of observable
   events (config read, API calls, fatal log exits).

Collaborator operations that can only fail through I/O (config file reads,
client construction, the remote list/get/update calls themselves) are
modelled as succeeding; `main` models every failure that is decided by the
program's own logic (flag validation, CIDR parsing).
-/

namespace NutanixTest

/-! ### Go `net` package model -/

/-- Go `net`: the 12-byte head that embeds an IPv4 address in a 16-byte
IPv6-form slice (`v4InV6Prefix` in net/ip.go). -/
def v4InV6Head : List Nat := [0, 0, 0, 0, 0, 0, 0, 0, 0, 0, 0xff, 0xff]

/-- Go `net.IPv4`: the 16-byte representation of a dotted-quad address. -/
def goIPv4 (a b c d : Nat) : List Nat := v4InV6Head ++ [a, b, c, d]

/-- Cutoff constant `big` of Go's net parsing helpers. -/
def bigCut : Nat := 0xFFFFFF

/-- Loop of Go `dtoi`: decimal prefix of a character list, returning the
value, the number of characters consumed, and an ok flag. -/
def dtoiAux : List Char → Nat → Nat → Nat × Nat × Bool
  | [], n, i => if i = 0 then (0, 0, false) else (n, i, true)
  | c :: rest, n, i =>
    if '0' ≤ c ∧ c ≤ '9' then
      let n1 := n * 10 + (c.toNat - '0'.toNat)
      if n1 ≥ bigCut then (bigCut, i, false)
      else dtoiAux rest n1 (i + 1)
    else if i = 0 then (0, 0, false) else (n, i, true)

/-- Go `dtoi`. -/
def dtoi (s : List Char) : Nat × Nat × Bool := dtoiAux s 0 0

/-- One hex digit's value, when the character is a hex digit. -/
def hexVal (c : Char) : Option Nat :=
  if '0' ≤ c ∧ c ≤ '9' then some (c.toNat - '0'.toNat)
  else if 'a' ≤ c ∧ c ≤ 'f' then some (c.toNat - 'a'.toNat + 10)
  else if 'A' ≤ c ∧ c ≤ 'F' then some (c.toNat - 'A'.toNat + 10)
  else none

/-- Loop of Go `xtoi`: hexadecimal prefix of a character list. -/
def xtoiAux : List Char → Nat → Nat → Nat × Nat × Bool
  | [], n, i => if i = 0 then (0, 0, false) else (n, i, true)
  | c :: rest, n, i =>
    match hexVal c with
    | some v =>
      let n1 := n * 16 + v
      if n1 ≥ bigCut then (0, i, false)
      else xtoiAux rest n1 (i + 1)
    | none => if i = 0 then (0, 0, false) else (n, i, true)

/-- Go `xtoi`. -/
def xtoi (s : List Char) : Nat × Nat × Bool := xtoiAux s 0 0

/-- Field loop of Go `parseIPv4`: `fuel` fields remain, `acc` holds the
fields already parsed. Empty list result models the nil `IP`. -/
def parseIPv4Aux : Nat → List Char → List Nat → List Nat
  | 0, s, acc => if s.isEmpty then v4InV6Head ++ acc else []
  | fuel + 1, s, acc =>
    if s.isEmpty then []
    else if acc.isEmpty then
      (if (dtoi s).2.2 = false ∨ (dtoi s).1 > 0xFF then []
       else if (dtoi s).2.1 > 1 ∧ s.head? = some '0' then []
       else parseIPv4Aux fuel (s.drop (dtoi s).2.1) (acc ++ [(dtoi s).1]))
    else
      match s with
      | '.' :: rest =>
        if (dtoi rest).2.2 = false ∨ (dtoi rest).1 > 0xFF then []
        else if (dtoi rest).2.1 > 1 ∧ rest.head? = some '0' then []
        else parseIPv4Aux fuel (rest.drop (dtoi rest).2.1) (acc ++ [(dtoi rest).1])
      | _ => []

/-- Go `parseIPv4`: dotted-quad parser, yielding the 16-byte form. -/
def parseIPv4 (s : List Char) : List Nat := parseIPv4Aux 4 s []

/-- Write the elements of `xs` into `l` starting at position `i`
(the IPv4-tail byte copy inside Go `parseIPv6`). -/
def setAt : List Nat → Nat → List Nat → List Nat
  | l, _, [] => l
  | l, i, x :: xs => setAt (l.set i x) (i + 1) xs

/-- Post-loop section of Go `parseIPv6`: check the string was consumed,
then expand a `::` ellipsis (shift the tail groups right and zero-fill). -/
def parseIPv6Post (s : List Char) (ip : List Nat) (i : Nat) (ellipsis : Option Nat) :
    List Nat :=
  if ¬s.isEmpty then []
  else if i < 16 then
    match ellipsis with
    | none => []
    | some e =>
      ip.take e ++ List.replicate (16 - i) 0 ++ (ip.drop e).take (i - e)
  else
    match ellipsis with
    | some _ => []
    | none => ip

/-- Main loop of Go `parseIPv6`: parse 16-bit hex groups separated by
colons, with an optional embedded IPv4 tail and at most one ellipsis.
`fuel` only bounds the recursion; the loop exits by `i` reaching 16 or the
string running out long before 16 iterations. -/
def parseIPv6Loop : Nat → List Char → List Nat → Nat → Option Nat → List Nat
  | 0, _, _, _, _ => []
  | fuel + 1, s, ip, i, ellipsis =>
    if 16 ≤ i then parseIPv6Post s ip i ellipsis
    else
      if (xtoi s).2.2 = false ∨ (xtoi s).1 > 0xFFFF then []
      else if (xtoi s).2.1 < s.length ∧ s.get? (xtoi s).2.1 = some '.' then
        (if ellipsis.isNone ∧ i ≠ 12 then []
         else if i + 4 > 16 then []
         else if (parseIPv4 s).isEmpty then []
         else parseIPv6Post [] (setAt ip i ((parseIPv4 s).drop 12)) (i + 4) ellipsis)
      else
        if (s.drop (xtoi s).2.1).isEmpty then
          parseIPv6Post (s.drop (xtoi s).2.1)
            ((ip.set i (((xtoi s).1 >>> 8) &&& 0xFF)).set (i + 1) ((xtoi s).1 &&& 0xFF))
            (i + 2) ellipsis
        else if (s.drop (xtoi s).2.1).head? ≠ some ':'
                ∨ (s.drop (xtoi s).2.1).length = 1 then []
        else if (s.drop ((xtoi s).2.1 + 1)).head? = some ':' then
          (if ellipsis.isSome then []
           else if (s.drop ((xtoi s).2.1 + 2)).isEmpty then
             parseIPv6Post (s.drop ((xtoi s).2.1 + 2))
               ((ip.set i (((xtoi s).1 >>> 8) &&& 0xFF)).set (i + 1) ((xtoi s).1 &&& 0xFF))
               (i + 2) (some (i + 2))
           else parseIPv6Loop fuel (s.drop ((xtoi s).2.1 + 2))
               ((ip.set i (((xtoi s).1 >>> 8) &&& 0xFF)).set (i + 1) ((xtoi s).1 &&& 0xFF))
               (i + 2) (some (i + 2)))
        else parseIPv6Loop fuel (s.drop ((xtoi s).2.1 + 1))
            ((ip.set i (((xtoi s).1 >>> 8) &&& 0xFF)).set (i + 1) ((xtoi s).1 &&& 0xFF))
            (i + 2) ellipsis

/-- Go `parseIPv6`. -/
def parseIPv6 (s : List Char) : List Nat :=
  if 2 ≤ s.length ∧ s.head? = some ':' ∧ s.get? 1 = some ':' then
    (if (s.drop 2).isEmpty then List.replicate 16 0
     else parseIPv6Loop 16 (s.drop 2) (List.replicate 16 0) 0 (some 0))
  else parseIPv6Loop 16 s (List.replicate 16 0) 0 none

/-- Index of the last `%` in the string; `isSome` detects scoped-zone
syntax anywhere in an IP literal. -/
def lastPercent (s : List Char) : Option Nat :=
  (List.range s.length).foldl
    (fun acc i => if s.get? i = some '%' then some i else acc) none

/-- Character scan of Go `ParseIP`: dispatch on the first `.` or `:`.
Any `%` (scoped-zone syntax) yields nil, as in Go 1.18: an empty zone
fails the netip parse and a non-empty zone is rejected by `net.ParseIP`
itself. -/
def parseIPScan : List Char → List Char → List Nat
  | [], _ => []
  | c :: rest, full =>
    if c = '.' then parseIPv4 full
    else if c = ':' then
      (if (lastPercent full).isNone then parseIPv6 full else [])
    else parseIPScan rest full

/-- Go `net.ParseIP`: `[]` models the nil `IP`. -/
def ParseIP (s : String) : List Nat := parseIPScan s.data s.data

/-- Go `isZeros`. -/
def isZeros (p : List Nat) : Bool := p.all (· == 0)

/-- Go `IP.To4`: the 4-byte form of an address when it is IPv4 or
IPv4-in-IPv6, else nil. -/
def ipTo4 (ip : List Nat) : List Nat :=
  if ip.length = 4 then ip
  else if ip.length = 16 ∧ isZeros (ip.take 10) ∧ ip.get? 10 = some 0xff ∧
          ip.get? 11 = some 0xff then
    ip.drop 12
  else []

/-- Go `IP.Mask`: apply a netmask, normalising a 16-byte mask over a
4-byte address and a 4-byte mask over an IPv4-in-IPv6 address. -/
def ipMask (ip mask : List Nat) : List Nat :=
  let mask1 := if mask.length = 16 ∧ ip.length = 4 ∧ (mask.take 12).all (· == 0xff)
               then mask.drop 12 else mask
  let ip1 := if mask1.length = 4 ∧ ip.length = 16 ∧ ip.take 12 = v4InV6Head
             then ip.drop 12 else ip
  if ip1.length ≠ mask1.length then []
  else List.zipWith (fun a b => a &&& b) ip1 mask1

/-- Go `IP.Equal`: byte equality up to the IPv4 / IPv4-in-IPv6 embedding. -/
def ipEqual (ip x : List Nat) : Bool :=
  if ip.length = x.length then ip == x
  else if ip.length = 4 ∧ x.length = 16 then
    (x.take 12 == v4InV6Head) && (ip == x.drop 12)
  else if ip.length = 16 ∧ x.length = 4 then
    (ip.take 12 == v4InV6Head) && (x == ip.drop 12)
  else false

/-- Byte loop of Go `CIDRMask`. -/
def cidrMaskAux : Nat → Nat → List Nat
  | 0, _ => []
  | l + 1, n =>
    if 8 ≤ n then 0xff :: cidrMaskAux l (n - 8)
    else (0xff ^^^ (0xff >>> n)) :: cidrMaskAux l 0

/-- Go `net.CIDRMask`. -/
def CIDRMask (ones bits : Nat) : List Nat :=
  if (bits ≠ 32 ∧ bits ≠ 128) ∨ ones > bits then []
  else cidrMaskAux (bits / 8) ones

/-- Go `net.IPNet`. -/
structure IPNet where
  ip : List Nat
  mask : List Nat
deriving DecidableEq

/-- Go `networkNumberAndMask`: normalise an `IPNet`'s address and mask to
matching widths, nil on malformed nets. -/
def networkNumberAndMask (n : IPNet) : List Nat × List Nat :=
  let ip0 := ipTo4 n.ip
  if ip0.isEmpty ∧ n.ip.length ≠ 16 then ([], [])
  else
    let ip := if ip0.isEmpty then n.ip else ip0
    if n.mask.length = 4 then
      (if ip.length ≠ 4 then ([], []) else (ip, n.mask))
    else if n.mask.length = 16 then
      (if ip.length = 4 then (ip, n.mask.drop 12) else (ip, n.mask))
    else ([], [])

/-- Byte comparison loop of Go `IPNet.Contains`. -/
def containsLoop : List Nat → List Nat → List Nat → Bool
  | nn :: nns, m :: ms, b :: bs =>
    ((nn &&& m) == (b &&& m)) && containsLoop nns ms bs
  | _, _, _ => true

/-- Go `IPNet.Contains`. -/
def ipNetContains (n : IPNet) (ip : List Nat) : Bool :=
  let nm := networkNumberAndMask n
  let x := ipTo4 ip
  let ip1 := if x.isEmpty then ip else x
  if ip1.length ≠ nm.1.length then false
  else containsLoop nm.1 nm.2 ip1

/-- Index of the first `/` in the string (Go `byteIndex(s, '/')`). -/
def firstSlash : List Char → Option (List Char × List Char)
  | [] => none
  | c :: rest =>
    if c = '/' then some ([], rest)
    else match firstSlash rest with
         | none => none
         | some p => some (c :: p.1, p.2)

/-- The address parse step of Go 1.18 `net.ParseCIDR` (via
`netip.ParseAddr`, whose result must carry no zone): same accepted
language as `ParseIP` — any `%` yields nil — together with the address's
bit length. -/
def parseCIDRAddr (addr : List Char) : List Nat × Nat :=
  let ip4 := parseIPv4 addr
  if ip4.isEmpty then
    (if (lastPercent addr).isNone then (parseIPv6 addr, 128) else ([], 128))
  else (ip4, 32)

/-- Go `net.ParseCIDR`: returns the parsed address and the masked network,
`none` on any parse error (`main` treats that as fatal). -/
def ParseCIDR (s : String) : Option (List Nat × IPNet) :=
  match firstSlash s.data with
  | none => none
  | some (addr, maskStr) =>
    let pa := parseCIDRAddr addr
    let r := dtoi maskStr
    if pa.1.isEmpty ∨ r.2.2 = false ∨ r.2.1 ≠ maskStr.length ∨ r.1 > pa.2 then
      none
    else
      let m := CIDRMask r.1 pa.2
      some (pa.1, { ip := ipMask pa.1 m, mask := m })

/-! ### Nutanix v3 client data model (the fields src/main.go reads and writes) -/

/-- `nutanixclientv3.IPAddress`: one entry of a NIC's IP endpoint list. -/
structure IPAddress where
  ip : String
  type : String
deriving DecidableEq

/-- `nutanixclientv3.VMNic`: the NIC fields the program uses. The Go NIC
list is a slice of pointers, so the in-place endpoint-list updates of the
reconciliation loop are visible in the VM spec that is later submitted. -/
structure VMNic where
  macAddress : String
  ipEndpointList : List IPAddress
  subnetUUID : String
deriving DecidableEq

/-- Subnet `IPConfig`: base address and prefix length
(`*ipConfig.SubnetIP`, `*ipConfig.PrefixLength`). -/
structure IPConfig where
  subnetIP : String
  prefixLength : Int
deriving DecidableEq

/-- `nutanixclientv3.SubnetIntentResponse`, restricted to the spec fields
the program reads. -/
structure Subnet where
  name : String
  ipConfig : IPConfig
deriving DecidableEq

/-- A VM spec: name and NIC list (`vm.Spec.Name`,
`vm.Spec.Resources.NicList`). -/
structure VM where
  name : String
  nicList : List VMNic
deriving DecidableEq

/-- One entity of the `ListAllVM` response: the program reads
`vmFromList.Spec.Name` and `vmFromList.Metadata.UUID`. -/
structure VMListEntry where
  name : String
  uuid : String
deriving DecidableEq

/-- The remote inventory as `main` observes it: the list response, and the
get-VM / get-subnet lookups by UUID. The remote calls themselves are
modelled as succeeding; every failure decided by the program's own logic
is modelled in `main`. -/
structure Env where
  vmList : List VMListEntry
  getVM : String → VM
  getSubnet : String → Subnet

/-- The three command-line flags. -/
structure Flags where
  nodeName : String
  addAddress : String
  removeAddress : String
deriving DecidableEq

/-- Observable events of a run of `main`, in program order: the config
read (home dir, secret file, endpoint file, client construction), each
remote API call, and a `klog.Fatal` exit. -/
inductive Event where
  | readConfig : Event
  | apiListVMs : Event
  | apiGetVM : String → Event
  | apiGetSubnet : String → Event
  | apiUpdateVM : String → VM → Event
  | fatal : String → Event
deriving DecidableEq

/-- Whether the event is the update call. -/
def Event.isUpdate : Event → Bool
  | .apiUpdateVM _ _ => true
  | _ => false

/-- Whether the event is a `klog.Fatal` exit. -/
def Event.isFatal : Event → Bool
  | .fatal _ => true
  | _ => false

/-- Whether the event is a remote API call. -/
def Event.isRemote : Event → Bool
  | .apiListVMs => true
  | .apiGetVM _ => true
  | .apiGetSubnet _ => true
  | .apiUpdateVM _ _ => true
  | _ => false

/-- UUIDs of the VMs fetched by get-VM calls in a trace, in order. -/
def fetchedVMs (evs : List Event) : List String :=
  evs.filterMap fun e => match e with
    | Event.apiGetVM u => some u
    | _ => none

/-- UUID and submitted spec of each update call in a trace, in order. -/
def updateCalls (evs : List Event) : List (String × VM) :=
  evs.filterMap fun e => match e with
    | Event.apiUpdateVM u v => some (u, v)
    | _ => none

/-! ### src/main.go control flow -/

/-- The CIDR string `fmt.Sprintf("%s/%d", *ipConfig.SubnetIP,
*ipConfig.PrefixLength)` built for a subnet. -/
def subnetCIDRString (s : Subnet) : String :=
  s.ipConfig.subnetIP ++ "/" ++ toString s.ipConfig.prefixLength

/-- The per-NIC mutation of the reconciliation loop (src/main.go lines
158-176), given the NIC's parsed subnet block: append an ASSIGNED entry
when the add flag is set and contained, then filter out every entry whose
parsed value equals the parsed remove flag when the remove flag is set and
contained. -/
def reconcileNic (addAddr removeAddr : String) (ipNet : IPNet) (nic : VMNic) : VMNic :=
  let nic1 :=
    if addAddr ≠ "" ∧ ipNetContains ipNet (ParseIP addAddr) = true then
      { nic with ipEndpointList :=
          nic.ipEndpointList ++ [{ ip := addAddr, type := "ASSIGNED" }] }
    else nic
  if removeAddr ≠ "" ∧ ipNetContains ipNet (ParseIP removeAddr) = true then
    { nic1 with ipEndpointList :=
        nic1.ipEndpointList.filter fun ep =>
          ! ipEqual (ParseIP ep.ip) (ParseIP removeAddr) }
  else nic1

/-- One iteration of the NIC loop: fetch the subnet, parse its CIDR
(`klog.Fatal` on a parse error), and apply the mutation. -/
def reconNic (addAddr removeAddr : String) (env : Env) (nic : VMNic) :
    List Event × Option VMNic :=
  let subnet := env.getSubnet nic.subnetUUID
  match ParseCIDR (subnetCIDRString subnet) with
  | none => ([Event.apiGetSubnet nic.subnetUUID, Event.fatal "ParseCIDR"], none)
  | some r => ([Event.apiGetSubnet nic.subnetUUID],
               some (reconcileNic addAddr removeAddr r.2 nic))

/-- The NIC loop over a VM's interface list, in order; a fatal CIDR parse
aborts the run (`none`). -/
def reconNics (addAddr removeAddr : String) (env : Env) :
    List VMNic → List Event × Option (List VMNic)
  | [] => ([], some [])
  | nic :: rest =>
    let r := reconNic addAddr removeAddr env nic
    match r.2 with
    | none => (r.1, none)
    | some nic1 =>
      let rr := reconNics addAddr removeAddr env rest
      match rr.2 with
      | none => (r.1 ++ rr.1, none)
      | some rest1 => (r.1 ++ rr.1, some (nic1 :: rest1))

/-- The body of the VM list loop for one entity (src/main.go lines
121-197): skip on a name mismatch; otherwise fetch the VM, reconcile each
NIC, and submit the update whenever an address flag is set. The Bool is
false when the iteration hit a fatal exit. -/
def processVM (f : Flags) (env : Env) (entry : VMListEntry) : List Event × Bool :=
  if entry.name ≠ f.nodeName then ([], true)
  else
    let vm := env.getVM entry.uuid
    let r := reconNics f.addAddress f.removeAddress env vm.nicList
    match r.2 with
    | none => (Event.apiGetVM entry.uuid :: r.1, false)
    | some nics1 =>
      if f.removeAddress ≠ "" ∨ f.addAddress ≠ "" then
        ((Event.apiGetVM entry.uuid :: r.1) ++
           [Event.apiUpdateVM entry.uuid { vm with nicList := nics1 }], true)
      else (Event.apiGetVM entry.uuid :: r.1, true)

/-- The VM list loop: process entities in inventory order, stopping at a
fatal exit. -/
def runVMs (f : Flags) (env : Env) : List VMListEntry → List Event
  | [] => []
  | entry :: rest =>
    let r := processVM f env entry
    if r.2 then r.1 ++ runVMs f env rest else r.1

/-- `main` (src/main.go lines 74-199): flag validation, config loading and
client construction (the single `readConfig` event), the list call, and
the VM loop. -/
def main (f : Flags) (env : Env) : List Event :=
  if f.nodeName = "" then [Event.fatal "Provide a node name"]
  else if f.addAddress ≠ "" ∧ f.removeAddress ≠ "" then
    [Event.fatal "Must provide exactly one, add-address or remove-address"]
  else
    Event.readConfig :: Event.apiListVMs :: runVMs f env env.vmList

/-! ### Concrete fixtures for witnesses and counterexamples -/

/-- A /24 subnet, 10.0.0.0/24 (the spec's running example). -/
def subnetA : Subnet := { name := "subnet-a", ipConfig := { subnetIP := "10.0.0.0", prefixLength := 24 } }

/-- A /16 subnet overlapping `subnetA`. -/
def subnetB : Subnet := { name := "subnet-b", ipConfig := { subnetIP := "10.0.0.0", prefixLength := 16 } }

/-- The parsed network of `subnetA`. -/
def netA : IPNet := { ip := [10, 0, 0, 0], mask := [255, 255, 255, 0] }

/-- The parsed network of `subnetB`. -/
def netB : IPNet := { ip := [10, 0, 0, 0], mask := [255, 255, 0, 0] }

/-- A NIC on `subnetA` that already holds 10.0.0.5. -/
def nicA : VMNic :=
  { macAddress := "50:6b:8d:00:00:01",
    ipEndpointList := [{ ip := "10.0.0.5", type := "ASSIGNED" }],
    subnetUUID := "s-a" }

/-- A NIC on `subnetB` with an empty address list. -/
def nicB : VMNic :=
  { macAddress := "50:6b:8d:00:00:02", ipEndpointList := [], subnetUUID := "s-b" }

/-- A VM named node-1 with the single NIC `nicA`. -/
def vmOne : VM := { name := "node-1", nicList := [nicA] }

/-- A VM named node-1 with two NICs on the overlapping subnets. -/
def vmTwo : VM := { name := "node-1", nicList := [nicA, nicB] }

/-- Subnet lookup returning `subnetA` for s-a and `subnetB` otherwise. -/
def subnetsAB (u : String) : Subnet := if u = "s-a" then subnetA else subnetB

/-- Inventory with a single node-1 VM. -/
def envOne : Env :=
  { vmList := [{ name := "node-1", uuid := "uuid-1" }],
    getVM := fun _ => vmOne,
    getSubnet := subnetsAB }

/-- Inventory with two VMs both named node-1. -/
def envDup : Env :=
  { vmList := [{ name := "node-1", uuid := "u1" }, { name := "node-1", uuid := "u2" }],
    getVM := fun u => if u = "u1" then vmOne else vmTwo,
    getSubnet := subnetsAB }

/-- Inventory whose only VM has a different name. -/
def envOther : Env :=
  { vmList := [{ name := "other-node", uuid := "u9" }],
    getVM := fun _ => vmOne,
    getSubnet := subnetsAB }

/-- A NIC holding 10.0.0.5 twice, an IPv4-in-IPv6 spelling of it, and an
unrelated address. -/
def nicMulti : VMNic :=
  { macAddress := "50:6b:8d:00:00:03",
    ipEndpointList := [{ ip := "10.0.0.5", type := "ASSIGNED" },
                       { ip := "10.0.0.7", type := "ASSIGNED" },
                       { ip := "::ffff:10.0.0.5", type := "LEARNED" },
                       { ip := "10.0.0.5", type := "LEARNED" }],
    subnetUUID := "s-a" }

/-- A NIC on `subnetB` holding 10.0.0.5 and an unrelated address. -/
def nicC : VMNic :=
  { macAddress := "50:6b:8d:00:00:04",
    ipEndpointList := [{ ip := "10.0.0.5", type := "LEARNED" },
                       { ip := "10.0.0.9", type := "ASSIGNED" }],
    subnetUUID := "s-b" }

/-! ### General lemmas -/

/-- The per-NIC reconciliation result when the subnet CIDR parses (the
value `reconNic` wraps in events and `Option`). -/
def reconPure (addAddr removeAddr : String) (env : Env) (nic : VMNic) : VMNic :=
  match ParseCIDR (subnetCIDRString (env.getSubnet nic.subnetUUID)) with
  | none => nic
  | some p => reconcileNic addAddr removeAddr p.2 nic

/-- The add branch of the reconciliation (src/main.go lines 158-165):
append one ASSIGNED entry for the address. -/
def addMutation (addr : String) (nic : VMNic) : VMNic :=
  { nic with ipEndpointList :=
      nic.ipEndpointList ++ [{ ip := addr, type := "ASSIGNED" }] }

/-- The remove branch of the reconciliation (src/main.go lines 166-176):
filter out every entry whose parsed value equals the parsed address. -/
def removeMutation (addr : String) (nic : VMNic) : VMNic :=
  { nic with ipEndpointList :=
      nic.ipEndpointList.filter fun ep =>
        ! ipEqual (ParseIP ep.ip) (ParseIP addr) }

/-- The add branch of `reconcileNic` on an add run: append one ASSIGNED
entry. -/
theorem reconcileNic_add_eq (addAddr : String) (ipNet : IPNet) (nic : VMNic)
    (ha : addAddr ≠ "") (hc : ipNetContains ipNet (ParseIP addAddr) = true) :
    reconcileNic addAddr "" ipNet nic
      = { nic with ipEndpointList :=
            nic.ipEndpointList ++ [{ ip := addAddr, type := "ASSIGNED" }] } := by
  simp [reconcileNic, ha, hc]

/-- The remove branch of `reconcileNic` on a remove run (the add flag is
empty): filter the endpoint list by parsed equality. -/
theorem reconcileNic_remove_eq (removeAddr : String) (ipNet : IPNet) (nic : VMNic)
    (hr : removeAddr ≠ "")
    (hc : ipNetContains ipNet (ParseIP removeAddr) = true) :
    reconcileNic "" removeAddr ipNet nic
      = { nic with ipEndpointList :=
            nic.ipEndpointList.filter fun ep =>
              ! ipEqual (ParseIP ep.ip) (ParseIP removeAddr) } := by
  simp [reconcileNic, hr, hc]

/-- `reconcileNic` is the identity when neither branch fires. -/
theorem reconcileNic_id (addAddr removeAddr : String) (ipNet : IPNet) (nic : VMNic)
    (ha : addAddr = "" ∨ ipNetContains ipNet (ParseIP addAddr) = false)
    (hr : removeAddr = "" ∨ ipNetContains ipNet (ParseIP removeAddr) = false) :
    reconcileNic addAddr removeAddr ipNet nic = nic := by
  rcases ha with ha | ha <;> rcases hr with hr | hr <;>
    simp [reconcileNic, ha, hr]

/-- `cidrMaskAux` produces exactly `l` bytes. -/
theorem cidrMaskAux_length (l : Nat) : ∀ n, (cidrMaskAux l n).length = l := by
  induction l with
  | zero => intro n; rfl
  | succ l ih =>
    intro n
    unfold cidrMaskAux
    split <;> simp [ih]

/-- A successful `parseIPv4Aux` run yields the v4-in-v6 head followed by
one byte per consumed field. -/
theorem parseIPv4Aux_shape (fuel : Nat) :
    ∀ (s : List Char) (acc : List Nat),
      parseIPv4Aux fuel s acc = []
      ∨ ∃ tl, parseIPv4Aux fuel s acc = v4InV6Head ++ tl
              ∧ tl.length = acc.length + fuel := by
  induction fuel with
  | zero =>
    intro s acc
    unfold parseIPv4Aux
    by_cases hs : s.isEmpty
    · right; exact ⟨acc, by simp [hs], by simp⟩
    · left; simp [hs]
  | succ fuel ih =>
    intro s acc
    unfold parseIPv4Aux
    split
    · left; rfl
    · split
      · split
        · left; rfl
        · split
          · left; rfl
          · rcases ih (s.drop (dtoi s).2.1) (acc ++ [(dtoi s).1]) with h | ⟨tl, h1, h2⟩
            · left; exact h
            · right
              refine ⟨tl, h1, ?_⟩
              simp at h2
              omega
      · split
        · rename_i rest _
          split
          · left; rfl
          · split
            · left; rfl
            · rcases ih (rest.drop (dtoi rest).2.1) (acc ++ [(dtoi rest).1]) with h | ⟨tl, h1, h2⟩
              · left; exact h
              · right
                refine ⟨tl, h1, ?_⟩
                simp at h2
                omega
        · left; rfl

/-- A successful `parseIPv4` result is 16 bytes with the v4-in-v6 head. -/
theorem parseIPv4_shape (s : List Char) :
    parseIPv4 s = []
    ∨ (parseIPv4 s).length = 16 ∧ (parseIPv4 s).take 12 = v4InV6Head := by
  rcases parseIPv4Aux_shape 4 s [] with h | ⟨tl, h1, h2⟩
  · left; exact h
  · right
    unfold parseIPv4
    rw [h1]
    simp at h2
    constructor
    · simp [v4InV6Head, h2]
    · have : (12 : Nat) = v4InV6Head.length := by decide
      rw [this, List.take_left]

/-- `setAt` preserves the list's length. -/
theorem setAt_length (xs : List Nat) :
    ∀ (l : List Nat) (i : Nat), (setAt l i xs).length = l.length := by
  induction xs with
  | nil => intro l i; rfl
  | cons x xs ih => intro l i; unfold setAt; rw [ih]; simp

/-- `parseIPv6Post` returns nil or 16 bytes, under the loop invariants. -/
theorem parseIPv6Post_length (s : List Char) (ip : List Nat) (i : Nat)
    (ell : Option Nat) (hip : ip.length = 16) (hi : i ≤ 16)
    (hell : ∀ e, ell = some e → e ≤ i) :
    parseIPv6Post s ip i ell = [] ∨ (parseIPv6Post s ip i ell).length = 16 := by
  unfold parseIPv6Post
  split
  · left; rfl
  · split
    · rename_i hlt
      cases ell with
      | none => left; rfl
      | some e =>
        right
        have he : e ≤ i := hell e rfl
        simp [List.length_take, List.length_replicate, List.length_drop, hip]
        omega
    · cases ell with
      | some e => left; rfl
      | none => right; exact hip

/-- `parseIPv6Loop` returns nil or 16 bytes, under the loop invariants. -/
theorem parseIPv6Loop_length (fuel : Nat) :
    ∀ (s : List Char) (ip : List Nat) (i : Nat) (ell : Option Nat),
      ip.length = 16 → i % 2 = 0 → i ≤ 16 → (∀ e, ell = some e → e ≤ i) →
      parseIPv6Loop fuel s ip i ell = []
      ∨ (parseIPv6Loop fuel s ip i ell).length = 16 := by
  induction fuel with
  | zero => intro s ip i ell _ _ _ _; left; rfl
  | succ fuel ih =>
    intro s ip i ell hip hev hi hell
    unfold parseIPv6Loop
    split
    · exact parseIPv6Post_length s ip i ell hip hi hell
    · rename_i hlt
      push_neg at hlt
      split
      · left; rfl
      · split
        · split
          · left; rfl
          · split
            · left; rfl
            · split
              · left; rfl
              · apply parseIPv6Post_length
                · rw [setAt_length]; exact hip
                · omega
                · intro e he; have := hell e he; omega
        · split
          · apply parseIPv6Post_length
            · simp [hip]
            · omega
            · intro e he; have := hell e he; omega
          · split
            · left; rfl
            · split
              · split
                · left; rfl
                · split
                  · apply parseIPv6Post_length
                    · simp [hip]
                    · omega
                    · intro e he
                      injection he with he
                      omega
                  · apply ih
                    · simp [hip]
                    · omega
                    · omega
                    · intro e he
                      injection he with he
                      omega
              · apply ih
                · simp [hip]
                · omega
                · omega
                · intro e he; have := hell e he; omega

/-- `parseIPv6` returns nil or 16 bytes. -/
theorem parseIPv6_length (s : List Char) :
    parseIPv6 s = [] ∨ (parseIPv6 s).length = 16 := by
  unfold parseIPv6
  split
  · split
    · right; simp
    · apply parseIPv6Loop_length
      · simp
      · rfl
      · omega
      · intro e he; injection he with he; omega
  · apply parseIPv6Loop_length
    · simp
    · rfl
    · omega
    · intro e he; cases he

/-- A /32-family CIDR mask has 4 bytes. -/
theorem CIDRMask_length_32 (ones : Nat) (h : ones ≤ 32) :
    (CIDRMask ones 32).length = 4 := by
  unfold CIDRMask
  rw [if_neg (by omega)]
  exact cidrMaskAux_length 4 ones

/-- A /128-family CIDR mask has 16 bytes. -/
theorem CIDRMask_length_128 (ones : Nat) (h : ones ≤ 128) :
    (CIDRMask ones 128).length = 16 := by
  unfold CIDRMask
  rw [if_neg (by omega)]
  exact cidrMaskAux_length 16 ones

/-- Masking a v4-in-v6 address with a 4-byte mask yields 4 bytes. -/
theorem ipMask_length_v4 (ip m : List Nat) (hip : ip.length = 16)
    (h12 : ip.take 12 = v4InV6Head) (hm : m.length = 4) :
    (ipMask ip m).length = 4 := by
  simp [ipMask, hip, hm, h12]

/-- Masking a 16-byte address with a 16-byte mask yields 16 bytes. -/
theorem ipMask_length_16 (ip m : List Nat) (hip : ip.length = 16)
    (hm : m.length = 16) :
    (ipMask ip m).length = 16 := by
  simp [ipMask, hip, hm]

/-- A parsed CIDR's network address and mask are both 4 bytes (IPv4
branch) or both 16 bytes (IPv6 branch). -/
theorem ParseCIDR_lengths (str : String) (a : List Nat) (n : IPNet)
    (h : ParseCIDR str = some (a, n)) :
    (n.ip.length = 4 ∧ n.mask.length = 4)
    ∨ (n.ip.length = 16 ∧ n.mask.length = 16) := by
  unfold ParseCIDR at h
  cases hfs : firstSlash str.data with
  | none => rw [hfs] at h; cases h
  | some p =>
    rw [hfs] at h
    rcases p with ⟨addr, maskStr⟩
    simp only at h
    split at h
    · cases h
    · rename_i hguard
      push_neg at hguard
      injection h with h
      injection h with h1 h2
      subst h2
      unfold parseCIDRAddr at hguard ⊢
      by_cases h4 : (parseIPv4 addr).isEmpty
      · -- IPv6 branch of the address parse
        rw [if_pos h4] at hguard ⊢
        by_cases hz : (lastPercent addr).isNone
        · rw [if_pos hz] at hguard ⊢
          right
          have hne : parseIPv6 addr ≠ [] := by
            intro hnil
            rcases hguard with ⟨hg, _⟩
            simp [hnil] at hg
          have hlen : (parseIPv6 addr).length = 16 := by
            rcases parseIPv6_length addr with hcase | hcase
            · exact absurd hcase hne
            · exact hcase
          rcases hguard with ⟨_, _, _, hones⟩
          constructor
          · exact ipMask_length_16 _ _ hlen (CIDRMask_length_128 _ (by omega))
          · exact CIDRMask_length_128 _ (by omega)
        · rw [if_neg hz] at hguard
          rcases hguard with ⟨hg, _⟩
          simp at hg
      · -- IPv4 branch of the address parse
        rw [if_neg h4] at hguard ⊢
        left
        have hne : parseIPv4 addr ≠ [] := by
          intro hnil
          rw [hnil] at h4
          exact h4 rfl
        have hshape := parseIPv4_shape addr
        rcases hshape with hcase | ⟨hlen, h12⟩
        · exact absurd hcase hne
        · rcases hguard with ⟨_, _, _, hones⟩
          constructor
          · exact ipMask_length_v4 _ _ hlen h12 (CIDRMask_length_32 _ (by omega))
          · exact CIDRMask_length_32 _ (by omega)

/-- The normalised network number of a well-formed net is 4 or 16 bytes. -/
theorem networkNumberAndMask_length (n : IPNet)
    (h : (n.ip.length = 4 ∧ n.mask.length = 4)
         ∨ (n.ip.length = 16 ∧ n.mask.length = 16)) :
    (networkNumberAndMask n).1.length = 4
    ∨ (networkNumberAndMask n).1.length = 16 := by
  rcases h with ⟨hip, hm⟩ | ⟨hip, hm⟩
  · left
    have hto4 : ipTo4 n.ip = n.ip := by simp [ipTo4, hip]
    have hne : n.ip.isEmpty = false := by
      cases hnip : n.ip
      · rw [hnip] at hip; cases hip
      · rfl
    simp [networkNumberAndMask, hto4, hne, hip, hm]
  · unfold networkNumberAndMask
    by_cases hcond : n.ip.length = 16 ∧ isZeros (n.ip.take 10) = true
        ∧ n.ip.get? 10 = some 0xff ∧ n.ip.get? 11 = some 0xff
    · -- the address is v4-in-v6: To4 yields the 4-byte tail
      have hto4 : ipTo4 n.ip = n.ip.drop 12 := by
        unfold ipTo4
        rw [if_neg (by omega), if_pos hcond]
      have hlen4 : (n.ip.drop 12).length = 4 := by simp [hip]
      have hne : (n.ip.drop 12).isEmpty = false := by
        cases hd : n.ip.drop 12
        · rw [hd] at hlen4; cases hlen4
        · rfl
      left
      simp [hto4, hne, hm, hlen4]
    · -- not v4-in-v6: To4 is nil and the 16-byte address is used
      have hto4 : ipTo4 n.ip = [] := by
        unfold ipTo4
        rw [if_neg (by omega), if_neg hcond]
      right
      simp [hto4, hip, hm]

/-- The nil address (an unparseable flag) is contained in no net produced
by a successful `ParseCIDR`. -/
theorem ParseCIDR_not_contains_nil (str : String) (a : List Nat) (n : IPNet)
    (h : ParseCIDR str = some (a, n)) :
    ipNetContains n [] = false := by
  have hlen := networkNumberAndMask_length n (ParseCIDR_lengths str a n h)
  unfold ipNetContains
  have hto4 : ipTo4 ([] : List Nat) = [] := rfl
  rcases hlen with hlen | hlen <;> simp [hto4, hlen]

/-- One NIC-loop iteration under a parseable subnet: one get-subnet event
and the pure reconciliation result. -/
theorem reconNic_eq (addAddr removeAddr : String) (env : Env) (nic : VMNic)
    (hsub : (ParseCIDR (subnetCIDRString (env.getSubnet nic.subnetUUID))).isSome = true) :
    reconNic addAddr removeAddr env nic
      = ([Event.apiGetSubnet nic.subnetUUID],
         some (reconPure addAddr removeAddr env nic)) := by
  unfold reconNic reconPure
  cases hp : ParseCIDR (subnetCIDRString (env.getSubnet nic.subnetUUID)) with
  | none => rw [hp] at hsub; cases hsub
  | some p => simp [hp]

/-- The NIC loop under parseable subnets: one get-subnet event per NIC and
the pointwise reconciliation results. -/
theorem reconNics_eq (addAddr removeAddr : String) (env : Env)
    (hsub : ∀ u, (ParseCIDR (subnetCIDRString (env.getSubnet u))).isSome = true) :
    ∀ nics : List VMNic,
      reconNics addAddr removeAddr env nics
        = (nics.map (fun nic => Event.apiGetSubnet nic.subnetUUID),
           some (nics.map (reconPure addAddr removeAddr env))) := by
  intro nics
  induction nics with
  | nil => rfl
  | cons nic rest ih =>
    unfold reconNics
    rw [reconNic_eq addAddr removeAddr env nic (hsub nic.subnetUUID), ih]
    simp

/-- A list-loop iteration on a non-matching entity does nothing. -/
theorem processVM_nomatch (f : Flags) (env : Env) (entry : VMListEntry)
    (hm : entry.name ≠ f.nodeName) :
    processVM f env entry = ([], true) := by
  simp [processVM, hm]

/-- A list-loop iteration on a matching entity, under parseable subnets:
get-VM, one get-subnet per NIC, and an update call whenever an address
flag is set — carrying the reconciled (possibly unchanged) spec. -/
theorem processVM_match (f : Flags) (env : Env) (entry : VMListEntry)
    (hm : entry.name = f.nodeName)
    (hsub : ∀ u, (ParseCIDR (subnetCIDRString (env.getSubnet u))).isSome = true) :
    processVM f env entry
      = ((Event.apiGetVM entry.uuid ::
            (env.getVM entry.uuid).nicList.map
              (fun nic => Event.apiGetSubnet nic.subnetUUID)) ++
          (if f.removeAddress ≠ "" ∨ f.addAddress ≠ "" then
            [Event.apiUpdateVM entry.uuid
              { env.getVM entry.uuid with
                  nicList := (env.getVM entry.uuid).nicList.map
                    (reconPure f.addAddress f.removeAddress env) }]
           else []), true) := by
  unfold processVM
  rw [if_neg (by simp [hm])]
  dsimp only
  rw [reconNics_eq f.addAddress f.removeAddress env hsub]
  by_cases hflag : f.removeAddress ≠ "" ∨ f.addAddress ≠ ""
  · simp [hflag]
  · simp [hflag]

/-- Under parseable subnets no list-loop iteration hits a fatal exit. -/
theorem processVM_ok (f : Flags) (env : Env) (entry : VMListEntry)
    (hsub : ∀ u, (ParseCIDR (subnetCIDRString (env.getSubnet u))).isSome = true) :
    (processVM f env entry).2 = true := by
  by_cases hm : entry.name = f.nodeName
  · rw [processVM_match f env entry hm hsub]
  · rw [processVM_nomatch f env entry hm]

/-- Unfolding step of the VM list loop under parseable subnets. -/
theorem runVMs_cons (f : Flags) (env : Env) (entry : VMListEntry)
    (l : List VMListEntry)
    (hsub : ∀ u, (ParseCIDR (subnetCIDRString (env.getSubnet u))).isSome = true) :
    runVMs f env (entry :: l)
      = (processVM f env entry).1 ++ runVMs f env l := by
  rw [runVMs]
  rw [processVM_ok f env entry hsub]
  simp

/-- Get-subnet events contain no get-VM call. -/
theorem fetchedVMs_subnet_events (nics : List VMNic) :
    fetchedVMs (nics.map fun nic => Event.apiGetSubnet nic.subnetUUID) = [] := by
  induction nics with
  | nil => rfl
  | cons nic rest ih => simp [fetchedVMs]

/-- Get-subnet events contain no update call. -/
theorem updateCalls_subnet_events (nics : List VMNic) :
    updateCalls (nics.map fun nic => Event.apiGetSubnet nic.subnetUUID) = [] := by
  induction nics with
  | nil => rfl
  | cons nic rest ih => simp [updateCalls]

/-- Get-subnet events contain no fatal exit. -/
theorem subnet_events_no_fatal (nics : List VMNic) :
    (nics.map fun nic => Event.apiGetSubnet nic.subnetUUID).any Event.isFatal
      = false := by
  induction nics with
  | nil => rfl
  | cons nic rest ih => simp [Event.isFatal]

/-- Every subnet of the fixture environments parses. -/
theorem subnetsAB_parses (u : String) :
    (ParseCIDR (subnetCIDRString (subnetsAB u))).isSome = true := by
  unfold subnetsAB
  split <;> decide

/-- `fetchedVMs` distributes over concatenation. -/
theorem fetchedVMs_append (a b : List Event) :
    fetchedVMs (a ++ b) = fetchedVMs a ++ fetchedVMs b := by
  simp [fetchedVMs]

/-- `updateCalls` distributes over concatenation. -/
theorem updateCalls_append (a b : List Event) :
    updateCalls (a ++ b) = updateCalls a ++ updateCalls b := by
  simp [updateCalls]

/-- A get-VM event is recorded by `fetchedVMs`. -/
theorem fetchedVMs_cons_getVM (u : String) (evs : List Event) :
    fetchedVMs (Event.apiGetVM u :: evs) = u :: fetchedVMs evs := rfl

/-- A get-VM event is not an update call. -/
theorem updateCalls_cons_getVM (u : String) (evs : List Event) :
    updateCalls (Event.apiGetVM u :: evs) = updateCalls evs := rfl

/-- An update event is not a get-VM call. -/
theorem fetchedVMs_single_update (u : String) (v : VM) :
    fetchedVMs [Event.apiUpdateVM u v] = [] := rfl

/-- An update event is recorded by `updateCalls`. -/
theorem updateCalls_single_update (u : String) (v : VM) :
    updateCalls [Event.apiUpdateVM u v] = [(u, v)] := rfl

/-- The VM loop fetches exactly the matching entities, in order. -/
theorem fetched_runVMs (f : Flags) (env : Env)
    (hsub : ∀ u, (ParseCIDR (subnetCIDRString (env.getSubnet u))).isSome = true) :
    ∀ l : List VMListEntry,
      fetchedVMs (runVMs f env l)
        = (l.filter (fun e => e.name == f.nodeName)).map VMListEntry.uuid := by
  intro l
  induction l with
  | nil => rfl
  | cons e rest ih =>
    rw [runVMs_cons f env e rest hsub, fetchedVMs_append, ih]
    by_cases hm : e.name = f.nodeName
    · rw [processVM_match f env e hm hsub]
      have hif : fetchedVMs
          (if f.removeAddress ≠ "" ∨ f.addAddress ≠ "" then
            [Event.apiUpdateVM e.uuid
              { env.getVM e.uuid with
                  nicList := (env.getVM e.uuid).nicList.map
                    (reconPure f.addAddress f.removeAddress env) }]
           else []) = [] := by
        split
        · rfl
        · rfl
      rw [fetchedVMs_append, fetchedVMs_cons_getVM, fetchedVMs_subnet_events, hif]
      simp [List.filter_cons, hm]
    · rw [processVM_nomatch f env e hm]
      simp [List.filter_cons, hm]
      rfl

/-- On a mutating run the VM loop submits an update for exactly the
matching entities, in order. -/
theorem updated_runVMs (f : Flags) (env : Env)
    (hsub : ∀ u, (ParseCIDR (subnetCIDRString (env.getSubnet u))).isSome = true)
    (hflag : f.removeAddress ≠ "" ∨ f.addAddress ≠ "") :
    ∀ l : List VMListEntry,
      (updateCalls (runVMs f env l)).map Prod.fst
        = (l.filter (fun e => e.name == f.nodeName)).map VMListEntry.uuid := by
  intro l
  induction l with
  | nil => rfl
  | cons e rest ih =>
    rw [runVMs_cons f env e rest hsub, updateCalls_append, List.map_append, ih]
    by_cases hm : e.name = f.nodeName
    · rw [processVM_match f env e hm hsub, if_pos hflag]
      rw [updateCalls_append, updateCalls_cons_getVM, updateCalls_subnet_events,
          updateCalls_single_update]
      simp [List.filter_cons, hm]
    · rw [processVM_nomatch f env e hm]
      simp [List.filter_cons, hm]
      rfl

/-! ### Claims -/

/-- C5: with both the add-address and the remove-address flags non-empty
(on a named-node invocation), `main` fails fast with the
invalid-arguments fatal before the configuration is read and before any
remote API call. -/
theorem c5_both_flags_fatal (env : Env) (f : Flags)
    (hn : f.nodeName ≠ "") (ha : f.addAddress ≠ "") (hr : f.removeAddress ≠ "") :
    main f env = [Event.fatal "Must provide exactly one, add-address or remove-address"]
    ∧ (∀ e ∈ main f env, e ≠ Event.readConfig ∧ e.isRemote = false) := by
  have h1 : main f env
      = [Event.fatal "Must provide exactly one, add-address or remove-address"] := by
    simp [main, hn, ha, hr]
  refine ⟨h1, ?_⟩
  intro e he
  rw [h1] at he
  simp only [List.mem_singleton] at he
  subst he
  exact ⟨by simp, rfl⟩

/-- Witness for C5 at a concrete invocation. -/
theorem c5_witness :
    main { nodeName := "node-1", addAddress := "10.0.0.5", removeAddress := "10.0.0.6" } envOne
      = [Event.fatal "Must provide exactly one, add-address or remove-address"]
    ∧ (∀ e ∈ main { nodeName := "node-1", addAddress := "10.0.0.5", removeAddress := "10.0.0.6" } envOne,
        e ≠ Event.readConfig ∧ e.isRemote = false) :=
  c5_both_flags_fatal envOne
    { nodeName := "node-1", addAddress := "10.0.0.5", removeAddress := "10.0.0.6" }
    (by decide) (by decide) (by decide)

/-- C10: with an empty node-name flag, `main` exits with a fatal error
before the configuration is read and before any remote API call. -/
theorem c10_empty_node_name_fatal (env : Env) (f : Flags) (hn : f.nodeName = "") :
    main f env = [Event.fatal "Provide a node name"]
    ∧ (∀ e ∈ main f env, e ≠ Event.readConfig ∧ e.isRemote = false) := by
  have h1 : main f env = [Event.fatal "Provide a node name"] := by
    simp [main, hn]
  refine ⟨h1, ?_⟩
  intro e he
  rw [h1] at he
  simp only [List.mem_singleton] at he
  subst he
  exact ⟨by simp, rfl⟩

/-- Witness for C10 at a concrete invocation. -/
theorem c10_witness :
    main { nodeName := "", addAddress := "10.0.0.5", removeAddress := "" } envOne
      = [Event.fatal "Provide a node name"]
    ∧ (∀ e ∈ main { nodeName := "", addAddress := "10.0.0.5", removeAddress := "" } envOne,
        e ≠ Event.readConfig ∧ e.isRemote = false) :=
  c10_empty_node_name_fatal envOne
    { nodeName := "", addAddress := "10.0.0.5", removeAddress := "" } (by decide)

/-- C6: on a remove run (the add flag is empty, as startup validation
guarantees), when the remove address falls within the NIC's block, the
mutation filters out every endpoint entry whose parsed value equals the
parsed remove address — all occurrences, under parsed (not textual)
equality — and when no entry matches, the list is unchanged. -/
theorem c6_remove_filters_parsed_equal (removeAddr : String) (ipNet : IPNet) (nic : VMNic)
    (hr : removeAddr ≠ "")
    (hc : ipNetContains ipNet (ParseIP removeAddr) = true) :
    (reconcileNic "" removeAddr ipNet nic).ipEndpointList
      = nic.ipEndpointList.filter (fun ep => ! ipEqual (ParseIP ep.ip) (ParseIP removeAddr))
    ∧ (∀ ep ∈ (reconcileNic "" removeAddr ipNet nic).ipEndpointList,
        ipEqual (ParseIP ep.ip) (ParseIP removeAddr) = false)
    ∧ ((∀ ep ∈ nic.ipEndpointList, ipEqual (ParseIP ep.ip) (ParseIP removeAddr) = false) →
        (reconcileNic "" removeAddr ipNet nic).ipEndpointList = nic.ipEndpointList) := by
  have hrec : (reconcileNic "" removeAddr ipNet nic).ipEndpointList
      = nic.ipEndpointList.filter (fun ep => ! ipEqual (ParseIP ep.ip) (ParseIP removeAddr)) := by
    simp [reconcileNic, hr, hc]
  refine ⟨hrec, ?_, ?_⟩
  · intro ep hep
    rw [hrec] at hep
    have h2 := List.of_mem_filter hep
    simpa using h2
  · intro hall
    rw [hrec]
    apply List.filter_eq_self.mpr
    intro ep hep
    simp [hall ep hep]

/-- Witness for C6: removing 10.0.0.5 deletes both textual occurrences
and the IPv4-in-IPv6 variant, keeping only the non-matching entry. -/
theorem c6_witness :
    (reconcileNic "" "10.0.0.5" netA nicMulti).ipEndpointList
      = nicMulti.ipEndpointList.filter
          (fun ep => ! ipEqual (ParseIP ep.ip) (ParseIP "10.0.0.5"))
    ∧ (∀ ep ∈ (reconcileNic "" "10.0.0.5" netA nicMulti).ipEndpointList,
        ipEqual (ParseIP ep.ip) (ParseIP "10.0.0.5") = false)
    ∧ ((∀ ep ∈ nicMulti.ipEndpointList,
          ipEqual (ParseIP ep.ip) (ParseIP "10.0.0.5") = false) →
        (reconcileNic "" "10.0.0.5" netA nicMulti).ipEndpointList
          = nicMulti.ipEndpointList) :=
  c6_remove_filters_parsed_equal "10.0.0.5" netA nicMulti (by decide) (by decide)

/-- C9: on a remove run whose address falls within the NIC's block, every
retained entry is an unchanged entry of the original list, the retained
entries keep their relative order (the result is a sublist of the
original), and every entry whose parsed value differs from the remove
address is retained. -/
theorem c9_remove_retains_rest_in_order (removeAddr : String) (ipNet : IPNet) (nic : VMNic)
    (hr : removeAddr ≠ "")
    (hc : ipNetContains ipNet (ParseIP removeAddr) = true) :
    List.Sublist (reconcileNic "" removeAddr ipNet nic).ipEndpointList nic.ipEndpointList
    ∧ (∀ ep ∈ nic.ipEndpointList,
        ipEqual (ParseIP ep.ip) (ParseIP removeAddr) = false →
        ep ∈ (reconcileNic "" removeAddr ipNet nic).ipEndpointList) := by
  have hrec : (reconcileNic "" removeAddr ipNet nic).ipEndpointList
      = nic.ipEndpointList.filter (fun ep => ! ipEqual (ParseIP ep.ip) (ParseIP removeAddr)) := by
    simp [reconcileNic, hr, hc]
  constructor
  · rw [hrec]
    exact List.filter_sublist _
  · intro ep hep hne
    rw [hrec]
    exact List.mem_filter.mpr ⟨hep, by simp [hne]⟩

/-- Witness for C9: the non-matching entry 10.0.0.7 survives, in place. -/
theorem c9_witness :
    List.Sublist (reconcileNic "" "10.0.0.5" netA nicA).ipEndpointList nicA.ipEndpointList
    ∧ (∀ ep ∈ nicA.ipEndpointList,
        ipEqual (ParseIP ep.ip) (ParseIP "10.0.0.5") = false →
        ep ∈ (reconcileNic "" "10.0.0.5" netA nicA).ipEndpointList) :=
  c9_remove_retains_rest_in_order "10.0.0.5" netA nicA (by decide) (by decide)

/-- C4, counterexample: the 10.0.0.0/24 subnet contains 10.0.0.5, the NIC
already holds a 10.0.0.5 entry, and the add workflow produces a list with
two equal 10.0.0.5 entries — not exactly one. -/
theorem c4_counterexample :
    ParseCIDR (subnetCIDRString subnetA) = some (goIPv4 10 0 0 0, netA)
    ∧ ipNetContains netA (ParseIP "10.0.0.5") = true
    ∧ (reconcileNic "10.0.0.5" "" netA nicA).ipEndpointList
        = [{ ip := "10.0.0.5", type := "ASSIGNED" }, { ip := "10.0.0.5", type := "ASSIGNED" }]
    ∧ (reconcileNic "10.0.0.5" "" netA nicA).ipEndpointList.countP
        (fun ep => ep.ip == "10.0.0.5") = 2 :=
  ⟨by decide, by decide, by decide, by decide⟩

/-- C4, amended: the add workflow appends one ASSIGNED entry
unconditionally; the requested address therefore appears exactly once with
kind ASSIGNED provided the interface did not already hold an entry with
that value, while a pre-existing equal entry is duplicated. -/
theorem c4_amended_add_appends (addAddr : String) (ipNet : IPNet) (nic : VMNic)
    (ha : addAddr ≠ "")
    (hc : ipNetContains ipNet (ParseIP addAddr) = true) :
    (reconcileNic addAddr "" ipNet nic).ipEndpointList
      = nic.ipEndpointList ++ [{ ip := addAddr, type := "ASSIGNED" }]
    ∧ ((∀ ep ∈ nic.ipEndpointList, ep.ip ≠ addAddr) →
        (reconcileNic addAddr "" ipNet nic).ipEndpointList.countP
            (fun ep => ep.ip == addAddr) = 1
        ∧ ∀ ep ∈ (reconcileNic addAddr "" ipNet nic).ipEndpointList,
            ep.ip = addAddr → ep.type = "ASSIGNED") := by
  have hrec : (reconcileNic addAddr "" ipNet nic).ipEndpointList
      = nic.ipEndpointList ++ [{ ip := addAddr, type := "ASSIGNED" }] := by
    simp [reconcileNic, ha, hc]
  refine ⟨hrec, fun hall => ⟨?_, ?_⟩⟩
  · rw [hrec, List.countP_append]
    have h0 : nic.ipEndpointList.countP (fun ep => ep.ip == addAddr) = 0 := by
      apply List.countP_eq_zero.mpr
      intro ep hep
      simp [hall ep hep]
    rw [h0]
    simp
  · intro ep hep hip
    rw [hrec] at hep
    rcases List.mem_append.mp hep with h | h
    · exact absurd hip (hall ep h)
    · simp only [List.mem_singleton] at h
      rw [h]

/-- Witness for C4 (amended) at a NIC that does not yet hold the address. -/
theorem c4_witness :
    (reconcileNic "10.0.0.9" "" netA nicA).ipEndpointList
      = nicA.ipEndpointList ++ [{ ip := "10.0.0.9", type := "ASSIGNED" }]
    ∧ ((∀ ep ∈ nicA.ipEndpointList, ep.ip ≠ "10.0.0.9") →
        (reconcileNic "10.0.0.9" "" netA nicA).ipEndpointList.countP
            (fun ep => ep.ip == "10.0.0.9") = 1
        ∧ ∀ ep ∈ (reconcileNic "10.0.0.9" "" netA nicA).ipEndpointList,
            ep.ip = "10.0.0.9" → ep.type = "ASSIGNED") :=
  c4_amended_add_appends "10.0.0.9" netA nicA (by decide) (by decide)


/-- C1, counterexample: the add address 192.168.1.5 falls in no attached
subnet of matched VM node-1, no interface is mutated (the reconciliation
is the identity on its NIC), yet the update call IS made, carrying the
unmodified spec. -/
theorem c1_counterexample :
    main { nodeName := "node-1", addAddress := "192.168.1.5", removeAddress := "" } envOne
      = [Event.readConfig, Event.apiListVMs, Event.apiGetVM "uuid-1",
         Event.apiGetSubnet "s-a", Event.apiUpdateVM "uuid-1" vmOne]
    ∧ (main { nodeName := "node-1", addAddress := "192.168.1.5", removeAddress := "" } envOne).any
        Event.isUpdate = true
    ∧ reconcileNic "192.168.1.5" "" netA nicA = nicA :=
  ⟨by decide, by decide, by decide⟩

/-- C1, amended: for a matched VM, under parseable subnets, the update
call is made exactly when at least one address flag is non-empty —
irrespective of whether any interface was mutated; the submitted spec is
the reconciled one, which may equal the original. -/
theorem c1_amended_update_iff_flag (f : Flags) (env : Env) (entry : VMListEntry)
    (hm : entry.name = f.nodeName)
    (hsub : ∀ u, (ParseCIDR (subnetCIDRString (env.getSubnet u))).isSome = true) :
    updateCalls (processVM f env entry).1
      = (if f.removeAddress ≠ "" ∨ f.addAddress ≠ "" then
          [(entry.uuid,
            { env.getVM entry.uuid with
                nicList := (env.getVM entry.uuid).nicList.map
                  (reconPure f.addAddress f.removeAddress env) })]
         else []) := by
  rw [processVM_match f env entry hm hsub]
  by_cases hflag : f.removeAddress ≠ "" ∨ f.addAddress ≠ ""
  · rw [if_pos hflag, if_pos hflag]
    rw [updateCalls_append, updateCalls_cons_getVM, updateCalls_subnet_events,
        updateCalls_single_update]
    rfl
  · rw [if_neg hflag, if_neg hflag]
    rw [List.append_nil, updateCalls_cons_getVM, updateCalls_subnet_events]

/-- Witness for C1 (amended): a flag outside every subnet still produces
exactly one update call, with the spec unchanged. -/
theorem c1_witness :
    updateCalls (processVM
        { nodeName := "node-1", addAddress := "192.168.1.5", removeAddress := "" }
        envOne { name := "node-1", uuid := "uuid-1" }).1
      = (if ("" : String) ≠ "" ∨ ("192.168.1.5" : String) ≠ "" then
          [("uuid-1",
            { envOne.getVM "uuid-1" with
                nicList := (envOne.getVM "uuid-1").nicList.map
                  (reconPure "192.168.1.5" "" envOne) })]
         else []) :=
  c1_amended_update_iff_flag
    { nodeName := "node-1", addAddress := "192.168.1.5", removeAddress := "" }
    envOne { name := "node-1", uuid := "uuid-1" } (by decide)
    (fun u => subnetsAB_parses u)

/-- C2, counterexample: two inventory entities named node-1; both are
fetched and both are submitted for update — the later duplicate is
processed, not skipped. -/
theorem c2_counterexample :
    fetchedVMs (main { nodeName := "node-1", addAddress := "10.0.0.7", removeAddress := "" } envDup)
      = ["u1", "u2"]
    ∧ (updateCalls (main { nodeName := "node-1", addAddress := "10.0.0.7", removeAddress := "" } envDup)).map
        Prod.fst = ["u1", "u2"] :=
  ⟨by decide, by decide⟩

/-- C2, amended: EVERY inventory entity whose name equals the node name —
not only the first — is fetched, in inventory order, and on a mutating
run each of them is submitted for update (under parseable subnets). -/
theorem c2_amended_all_matches_processed (f : Flags) (env : Env)
    (hn : f.nodeName ≠ "")
    (hb : ¬(f.addAddress ≠ "" ∧ f.removeAddress ≠ ""))
    (hsub : ∀ u, (ParseCIDR (subnetCIDRString (env.getSubnet u))).isSome = true) :
    fetchedVMs (main f env)
      = (env.vmList.filter (fun e => e.name == f.nodeName)).map VMListEntry.uuid
    ∧ ((f.removeAddress ≠ "" ∨ f.addAddress ≠ "") →
        (updateCalls (main f env)).map Prod.fst
          = (env.vmList.filter (fun e => e.name == f.nodeName)).map VMListEntry.uuid) := by
  have hmain : main f env
      = Event.readConfig :: Event.apiListVMs :: runVMs f env env.vmList := by
    simp [main, hn, hb]
  rw [hmain]
  constructor
  · show fetchedVMs (runVMs f env env.vmList) = _
    exact fetched_runVMs f env hsub env.vmList
  · intro hflag
    show (updateCalls (runVMs f env env.vmList)).map Prod.fst = _
    exact updated_runVMs f env hsub hflag env.vmList

/-- Witness for C2 (amended) on the duplicate-name inventory. -/
theorem c2_witness :
    fetchedVMs (main { nodeName := "node-1", addAddress := "10.0.0.7", removeAddress := "" } envDup)
      = (envDup.vmList.filter (fun e => e.name == "node-1")).map VMListEntry.uuid
    ∧ ((("" : String) ≠ "" ∨ ("10.0.0.7" : String) ≠ "") →
        (updateCalls (main { nodeName := "node-1", addAddress := "10.0.0.7", removeAddress := "" } envDup)).map
          Prod.fst
          = (envDup.vmList.filter (fun e => e.name == "node-1")).map VMListEntry.uuid) :=
  c2_amended_all_matches_processed
    { nodeName := "node-1", addAddress := "10.0.0.7", removeAddress := "" }
    envDup (by decide) (by decide) (fun u => subnetsAB_parses u)

/-- C3, counterexample: no VM named node-1 exists; the run ends after the
list call with no fatal report and no NotFound condition — it exits
silently with success, contrary to the claim. -/
theorem c3_counterexample :
    main { nodeName := "node-1", addAddress := "10.0.0.5", removeAddress := "" } envOther
      = [Event.readConfig, Event.apiListVMs]
    ∧ (main { nodeName := "node-1", addAddress := "10.0.0.5", removeAddress := "" } envOther).any
        Event.isFatal = false :=
  ⟨by decide, by decide⟩

/-- C3, amended: when no inventory entity matches the node name, the run
reads the config, lists the VMs and exits normally — no error condition is
reported and no further call is made (a silent no-op). -/
theorem c3_amended_no_match_silent (f : Flags) (env : Env)
    (hn : f.nodeName ≠ "")
    (hb : ¬(f.addAddress ≠ "" ∧ f.removeAddress ≠ ""))
    (hnone : ∀ e ∈ env.vmList, e.name ≠ f.nodeName) :
    main f env = [Event.readConfig, Event.apiListVMs]
    ∧ (main f env).any Event.isFatal = false := by
  have hmain : main f env
      = Event.readConfig :: Event.apiListVMs :: runVMs f env env.vmList := by
    simp [main, hn, hb]
  have hrun : ∀ l : List VMListEntry, (∀ e ∈ l, e.name ≠ f.nodeName) →
      runVMs f env l = [] := by
    intro l
    induction l with
    | nil => intro _; rfl
    | cons e rest ih =>
      intro hl
      rw [runVMs]
      rw [processVM_nomatch f env e (hl e (by simp))]
      simpa using ih (fun x hx => hl x (by simp [hx]))
  have h1 : main f env = [Event.readConfig, Event.apiListVMs] := by
    rw [hmain, hrun env.vmList hnone]
  exact ⟨h1, by rw [h1]; rfl⟩

/-- Witness for C3 (amended) on the no-match inventory. -/
theorem c3_witness :
    main { nodeName := "node-1", addAddress := "10.0.0.5", removeAddress := "" } envOther
      = [Event.readConfig, Event.apiListVMs]
    ∧ (main { nodeName := "node-1", addAddress := "10.0.0.5", removeAddress := "" } envOther).any
        Event.isFatal = false :=
  c3_amended_no_match_silent
    { nodeName := "node-1", addAddress := "10.0.0.5", removeAddress := "" }
    envOther (by decide) (by decide) (by decide)

/-- C7: for an address contained in the subnet of the interface at ANY
position of the NIC list — including overlapping-subnet configurations
where several positions qualify — a completed NIC loop applies the
mutation at that position, in interface order: an add run appends the
ASSIGNED entry there, and a remove run filters out the parsed-equal
entries there; neither mutation has a first-match cut-off. -/
theorem c7_every_containing_nic_mutated (addr : String) (env : Env)
    (nics : List VMNic) (i : Nat) (nic : VMNic) (p : List Nat × IPNet)
    (ha : addr ≠ "")
    (hsub : ∀ u, (ParseCIDR (subnetCIDRString (env.getSubnet u))).isSome = true)
    (hget : nics[i]? = some nic)
    (hp : ParseCIDR (subnetCIDRString (env.getSubnet nic.subnetUUID)) = some p)
    (hc : ipNetContains p.2 (ParseIP addr) = true) :
    (∀ evs nics1, reconNics addr "" env nics = (evs, some nics1) →
      nics1[i]? = some (addMutation addr nic))
    ∧ (∀ evs nics1, reconNics "" addr env nics = (evs, some nics1) →
      nics1[i]? = some (removeMutation addr nic)) := by
  constructor
  · intro evs nics1 hrec
    rw [reconNics_eq addr "" env hsub nics] at hrec
    injection hrec with h1 h2
    injection h2 with h2
    subst h2
    rw [List.getElem?_map, hget]
    have hpure : reconPure addr "" env nic = addMutation addr nic := by
      unfold reconPure
      rw [hp]
      exact reconcileNic_add_eq addr p.2 nic ha hc
    simp [hpure]
  · intro evs nics1 hrec
    rw [reconNics_eq "" addr env hsub nics] at hrec
    injection hrec with h1 h2
    injection h2 with h2
    subst h2
    rw [List.getElem?_map, hget]
    have hpure : reconPure "" addr env nic = removeMutation addr nic := by
      unfold reconPure
      rw [hp]
      exact reconcileNic_remove_eq addr p.2 nic ha hc
    simp [hpure]

/-- Witness for C7: two NICs on the overlapping subnets 10.0.0.0/24 and
10.0.0.0/16, with 10.0.0.5 contained in both; the add run appends on BOTH
interfaces and the remove run filters on BOTH interfaces, in order. -/
theorem c7_witness :
    ([addMutation "10.0.0.5" nicA, addMutation "10.0.0.5" nicC][0]?
      = some (addMutation "10.0.0.5" nicA))
    ∧ ([removeMutation "10.0.0.5" nicA, removeMutation "10.0.0.5" nicC][0]?
      = some (removeMutation "10.0.0.5" nicA))
    ∧ ([addMutation "10.0.0.5" nicA, addMutation "10.0.0.5" nicC][1]?
      = some (addMutation "10.0.0.5" nicC))
    ∧ ([removeMutation "10.0.0.5" nicA, removeMutation "10.0.0.5" nicC][1]?
      = some (removeMutation "10.0.0.5" nicC)) :=
  ⟨(c7_every_containing_nic_mutated "10.0.0.5" envOne [nicA, nicC] 0 nicA
      (goIPv4 10 0 0 0, netA) (by decide) (fun u => subnetsAB_parses u)
      (by decide) (by decide) (by decide)).1
      [Event.apiGetSubnet "s-a", Event.apiGetSubnet "s-b"]
      [addMutation "10.0.0.5" nicA, addMutation "10.0.0.5" nicC] (by decide),
   (c7_every_containing_nic_mutated "10.0.0.5" envOne [nicA, nicC] 0 nicA
      (goIPv4 10 0 0 0, netA) (by decide) (fun u => subnetsAB_parses u)
      (by decide) (by decide) (by decide)).2
      [Event.apiGetSubnet "s-a", Event.apiGetSubnet "s-b"]
      [removeMutation "10.0.0.5" nicA, removeMutation "10.0.0.5" nicC] (by decide),
   (c7_every_containing_nic_mutated "10.0.0.5" envOne [nicA, nicC] 1 nicC
      (goIPv4 10 0 0 0, netB) (by decide) (fun u => subnetsAB_parses u)
      (by decide) (by decide) (by decide)).1
      [Event.apiGetSubnet "s-a", Event.apiGetSubnet "s-b"]
      [addMutation "10.0.0.5" nicA, addMutation "10.0.0.5" nicC] (by decide),
   (c7_every_containing_nic_mutated "10.0.0.5" envOne [nicA, nicC] 1 nicC
      (goIPv4 10 0 0 0, netB) (by decide) (fun u => subnetsAB_parses u)
      (by decide) (by decide) (by decide)).2
      [Event.apiGetSubnet "s-a", Event.apiGetSubnet "s-b"]
      [removeMutation "10.0.0.5" nicA, removeMutation "10.0.0.5" nicC] (by decide)⟩

/-- C8: when the only non-empty address flag does not parse as an IP, no
NIC is mutated (the containment test is false for the nil address), no
fatal error is raised, and the update is still submitted for the matched
VM with the unmodified spec. -/
theorem c8_unparseable_flag_updates_unchanged (f : Flags) (env : Env)
    (entry : VMListEntry)
    (hm : entry.name = f.nodeName)
    (hflag : f.removeAddress ≠ "" ∨ f.addAddress ≠ "")
    (ha : f.addAddress = "" ∨ ParseIP f.addAddress = [])
    (hr : f.removeAddress = "" ∨ ParseIP f.removeAddress = [])
    (hsub : ∀ u, (ParseCIDR (subnetCIDRString (env.getSubnet u))).isSome = true) :
    (processVM f env entry).1.any Event.isFatal = false
    ∧ updateCalls (processVM f env entry).1 = [(entry.uuid, env.getVM entry.uuid)] := by
  have hid : ∀ nic, reconPure f.addAddress f.removeAddress env nic = nic := by
    intro nic
    unfold reconPure
    cases hp : ParseCIDR (subnetCIDRString (env.getSubnet nic.subnetUUID)) with
    | none => rfl
    | some q =>
      apply reconcileNic_id
      · rcases ha with h | h
        · exact Or.inl h
        · right
          rw [h]
          exact ParseCIDR_not_contains_nil _ q.1 q.2 (by rw [hp])
      · rcases hr with h | h
        · exact Or.inl h
        · right
          rw [h]
          exact ParseCIDR_not_contains_nil _ q.1 q.2 (by rw [hp])
  have hmap : ∀ l : List VMNic,
      l.map (reconPure f.addAddress f.removeAddress env) = l := by
    intro l
    induction l with
    | nil => rfl
    | cons a l ih => simp [hid a, ih]
  rw [processVM_match f env entry hm hsub, if_pos hflag]
  constructor
  · simp [Event.isFatal, subnet_events_no_fatal]
  · rw [updateCalls_append, updateCalls_cons_getVM, updateCalls_subnet_events,
        updateCalls_single_update, hmap]
    rfl

/-- Witness for C8: add flag "banana" parses as no IP; the matched VM is
still updated with its spec unchanged and nothing fatal happens. -/
theorem c8_witness :
    (processVM { nodeName := "node-1", addAddress := "banana", removeAddress := "" }
        envOne { name := "node-1", uuid := "uuid-1" }).1.any Event.isFatal = false
    ∧ updateCalls (processVM
        { nodeName := "node-1", addAddress := "banana", removeAddress := "" }
        envOne { name := "node-1", uuid := "uuid-1" }).1
      = [("uuid-1", envOne.getVM "uuid-1")] :=
  c8_unparseable_flag_updates_unchanged
    { nodeName := "node-1", addAddress := "banana", removeAddress := "" }
    envOne { name := "node-1", uuid := "uuid-1" } (by decide)
    (Or.inr (by decide)) (Or.inr (by decide)) (Or.inl rfl)
    (fun u => subnetsAB_parses u)
end NutanixTest
